import Mathlib

/-!
Verification development for `update.py` of the mc-lang repository: a
fetch-transform-merge pipeline that synchronizes a catalog of game-language
metadata.  Python dicts parsed from JSON are modelled as association lists of
`JVal` values; fallible dict indexing is modelled with `Except`.
-/

set_option autoImplicit false

namespace MCLang

/-- JSON-like values as they occur in the locale records handled by
`update.py`: strings, booleans (the override flags) and nested objects. -/
inductive JVal where
  | str (s : String)
  | bool (b : Bool)
  | obj (fields : List (String × JVal))
  deriving Repr

/-- Decidable equality on `JVal` (the automatic derivation does not handle
the nested `List`). -/
def JVal.decEq (a b : JVal) : Decidable (a = b) :=
  match a, b with
  | .str s, .str t =>
      if h : s = t then isTrue (congrArg JVal.str h)
      else isFalse (fun hh => h (JVal.str.inj hh))
  | .bool s, .bool t =>
      if h : s = t then isTrue (congrArg JVal.bool h)
      else isFalse (fun hh => h (JVal.bool.inj hh))
  | .obj [], .obj [] => isTrue rfl
  | .obj ((k, v) :: r), .obj ((k2, v2) :: r2) =>
      if hk : k = k2 then
        match JVal.decEq v v2 with
        | isTrue hv =>
            match JVal.decEq (.obj r) (.obj r2) with
            | isTrue hr => isTrue (by
                subst hk; subst hv
                rw [JVal.obj.inj hr])
            | isFalse hr => isFalse (fun h => by
                injection h with h1
                injection h1 with h2 h3
                exact hr (congrArg JVal.obj h3))
        | isFalse hv => isFalse (fun h => by
            injection h with h1
            injection h1 with h2 h3
            injection h2 with hk2 hv2
            exact hv hv2)
      else isFalse (fun h => by
        injection h with h1
        injection h1 with h2 h3
        injection h2 with hk2 hv2
        exact hk hk2)
  | .str _, .bool _ => isFalse (fun h => JVal.noConfusion h)
  | .str _, .obj _ => isFalse (fun h => JVal.noConfusion h)
  | .bool _, .str _ => isFalse (fun h => JVal.noConfusion h)
  | .bool _, .obj _ => isFalse (fun h => JVal.noConfusion h)
  | .obj _, .str _ => isFalse (fun h => JVal.noConfusion h)
  | .obj _, .bool _ => isFalse (fun h => JVal.noConfusion h)
  | .obj [], .obj (_ :: _) => isFalse (fun h => by
      injection h with h1
      exact List.noConfusion h1)
  | .obj (_ :: _), .obj [] => isFalse (fun h => by
      injection h with h1
      exact List.noConfusion h1)
termination_by sizeOf a
decreasing_by all_goals (simp_wf; try omega)

instance : DecidableEq JVal := JVal.decEq

/-- A Python dict parsed from JSON, as an association list (first match wins,
like a dict that never holds duplicate keys). -/
abbrev Dict := List (String × JVal)

/-- Dict lookup, `d[k]` on the `Option` level / `k in d` via `isSome`. -/
def getKey : Dict → String → Option JVal
  | [], _ => none
  | (k', v) :: rest, k => if k' = k then some v else getKey rest k

/-- Dict update `d[k] = v`: replaces the value in place when the key is
present, appends otherwise (Python dict insertion-order semantics). -/
def setKey : Dict → String → JVal → Dict
  | [], k, v => [(k, v)]
  | (k', v') :: rest, k, v =>
      if k' = k then (k, v) :: rest else (k', v') :: setKey rest k v

/-- Python `d.get(k, default)`. -/
def getD (d : Dict) (k : String) (v : JVal) : JVal :=
  (getKey d k).getD v

/-- Python `d[k]`: raises `KeyError` when the key is absent. -/
def pyIndex (d : Dict) (k : String) : Except String JVal :=
  match getKey d k with
  | some v => Except.ok v
  | none => Except.error "KeyError"

/-- Python `d[k1][k2]`: `KeyError` on a missing key, `TypeError` when the
inner value is not a dict. -/
def pyIndex2 (d : Dict) (k1 k2 : String) : Except String JVal := do
  match ← pyIndex d k1 with
  | JVal.obj o => pyIndex o k2
  | _ => Except.error "TypeError"

/-- Python `d.get(k, {})` followed by use of the result as a dict: the
default is the empty dict, and a present non-dict value makes the subsequent
attribute access raise. -/
def getSectionD (d : Dict) (k : String) : Except String Dict :=
  match getKey d k with
  | none => Except.ok []
  | some (JVal.obj o) => Except.ok o
  | some _ => Except.error "AttributeError"

/-- Python `d[sec][field] = v`: needs `sec` to be present and map to a dict. -/
def setNested (d : Dict) (sec field : String) (v : JVal) : Except String Dict :=
  match getKey d sec with
  | some (JVal.obj o) => Except.ok (setKey d sec (JVal.obj (setKey o field v)))
  | some _ => Except.error "TypeError"
  | none => Except.error "KeyError"

/-- Python truthiness restricted to the values representable in `JVal`:
a string is truthy iff nonempty, a dict iff nonempty. -/
def truthy : JVal → Bool
  | JVal.str s => s != ""
  | JVal.bool b => b
  | JVal.obj o => !o.isEmpty

/-- Python `v == "?"`: true exactly on the string `"?"` (comparison of a
non-string with a string is `False`). -/
def isPlaceholder : JVal → Bool
  | JVal.str s => s = "?"
  | _ => false

/-- Modelled from the spec: the external language reference table
(`pycountry.languages`, not part of this repository), looked up "by 3-letter
language code" (spec §6); keys are lowercase ISO 639-3 alpha_3 codes. -/
def pycountryLanguagesAlpha3 : List (String × String) :=
  [("deu", "German"), ("eng", "English"), ("fra", "French"),
   ("ast", "Asturian"), ("epo", "Esperanto"), ("rus", "Russian")]

/-- Modelled from the spec: the external country reference table
(`pycountry.countries`, not part of this repository), looked up "by 2-letter
region code" (spec §6); keys are uppercase ISO 3166-1 alpha_2 codes. -/
def pycountryCountriesAlpha2 : List (String × String) :=
  [("DE", "Germany"), ("US", "United States"), ("FR", "France"),
   ("ES", "Spain"), ("RU", "Russia"), ("GB", "United Kingdom")]

/-- Lookup in a reference table (`pycountry...get(... = code)` returning
`None` on a miss). -/
def tableGet : List (String × String) → String → Option String
  | [], _ => none
  | (k, v) :: rest, code => if k = code then some v else tableGet rest code

/-- Split of a character list on a separator character, with Python
`str.split(sep)` semantics: the result always has one more piece than there
are separator occurrences (so `"".split("_") == [""]` and adjacent
separators yield empty pieces). -/
def splitChars (sep : Char) : List Char → List (List Char)
  | [] => [[]]
  | c :: cs =>
      match splitChars sep cs with
      | [] => [[]]
      | h :: t => if c = sep then [] :: h :: t else (c :: h) :: t

/-- Python `s.split(sep)` for a one-character separator (as in
`locale.split("_")`). -/
def pySplit (s : String) (sep : Char) : List String :=
  (splitChars sep s.toList).map (fun cs => String.mk cs)

/-- Python `s.lower()` restricted to ASCII (locale codes are ASCII);
`Char.toLower` maps exactly the ASCII uppercase range. -/
def pyLower (s : String) : String :=
  String.mk (s.toList.map Char.toLower)

/-- Python `s.upper()` restricted to ASCII. -/
def pyUpper (s : String) : String :=
  String.mk (s.toList.map Char.toUpper)

/-- `get_locale_details` from `update.py`: split the locale on `"_"`; with
exactly two parts, look the language part up lowercased in the alpha_3 table
and the region part uppercased in the alpha_2 table, substituting `"?"` for
any side whose lookup fails; otherwise return `("?", "?")`. -/
def get_locale_details (locale : String) : String × String :=
  match pySplit locale '_' with
  | [lang_code, region_code] =>
      let language := tableGet pycountryLanguagesAlpha3 (pyLower lang_code)
      let country := tableGet pycountryCountriesAlpha2 (pyUpper region_code)
      (language.getD "?", country.getD "?")
  | _ => ("?", "?")

/-- `get_lang_info` from `update.py`, applied to the already-parsed JSON body
of a locale file (the HTTP fetch is external): reads `language.code`, resolves
the english names, and builds the record.  A missing field raises `KeyError`;
a non-string locale code would make `locale.split` raise. -/
def get_lang_info (data : Dict) : Except String Dict := do
  let locale ← pyIndex data "language.code"
  match locale with
  | JVal.str loc =>
      let names := get_locale_details loc
      let nativeName ← pyIndex data "language.name"
      let nativeRegion ← pyIndex data "language.region"
      Except.ok
        [("iso_code", JVal.str loc),
         ("native", JVal.obj [("name", nativeName), ("region", nativeRegion)]),
         ("english", JVal.obj [("name", JVal.str names.1), ("region", JVal.str names.2)])]
  | _ => Except.error "AttributeError"

/-- One iteration of the field loop in `merge_lang_info` (the section loop
ranges over the single section `"english"`).  `merged` starts as a shallow
copy of `existing`, so the reads of `existing` below are unaffected by the
writes of the previous iteration: each iteration writes only `field` and
`override_field` of the shared english dict and reads only its own pair. -/
def mergeField (existing new : Dict) (field : String) (merged : Dict) :
    Except String Dict := do
  let override_key := "override_" ++ field
  let esec ← getSectionD existing "english"
  let is_overridden := truthy (getD esec override_key (JVal.bool false))
  let new_value ← pyIndex2 new "english" field
  let existing_value := getD esec field (JVal.str "?")
  if is_overridden then
    let m ← setNested merged "english" field existing_value
    setNested m "english" override_key (JVal.bool true)
  else if isPlaceholder new_value then
    setNested merged "english" field existing_value
  else
    let m ← setNested merged "english" field new_value
    match getKey esec override_key with
    | some flag => setNested m "english" override_key flag
    | none => Except.ok m

/-- `merge_lang_info` from `update.py`: field-wise merge of the `english`
section (fields `name` then `region`), then wholesale replacement of
`iso_code` and `native` by the new record's values. -/
def merge_lang_info (existing new : Dict) : Except String Dict := do
  let merged := existing
  let merged ← mergeField existing new "name" merged
  let merged ← mergeField existing new "region" merged
  let iso ← pyIndex new "iso_code"
  let nativeVal ← pyIndex new "native"
  Except.ok (setKey (setKey merged "iso_code" iso) "native" nativeVal)

/-- Python `s.endswith(suffix)`. -/
def pyEndsWith (s suffix : String) : Bool :=
  suffix.toList.isSuffixOf s.toList

/-- Python `s.removesuffix(suffix)`: strips the suffix when it is nonempty
and present, otherwise returns the string unchanged. -/
def pyRemovesuffix (s suffix : String) : String :=
  if suffix != "" && pyEndsWith s suffix
  then String.mk (s.toList.take (s.toList.length - suffix.toList.length))
  else s

/-- The listing filter on line 119 of `update.py`: keep the files ending in
`".json"` other than `"deprecated.json"`, in their listed order. -/
def filterLangFiles (files : List String) : List String :=
  files.filter (fun f => pyEndsWith f ".json" && f != "deprecated.json")

/-- The `try` block of the per-file loop in `main`, with the network
modelled by an oracle `fetchData` giving each file's parsed JSON body or a
failure.  It covers the fetch, `get_lang_info` and (when the key is already
catalogued) `merge_lang_info`; an existing catalog entry that is not a dict
would make `merge_lang_info` raise. -/
def processAttempt (fetchData : String → Except String Dict) (catalog : Dict)
    (lang_file : String) : Except String Dict := do
  let data ← fetchData lang_file
  let info ← get_lang_info data
  match getKey catalog (pyRemovesuffix lang_file ".json") with
  | some (JVal.obj existing) => merge_lang_info existing info
  | some _ => Except.error "AttributeError"
  | none => Except.ok info

/-- Outcome of one loop iteration: on success the catalog entry for the
file's key is set to the produced record, on any failure the catalog is
returned unchanged (the `except` branch only logs). -/
def processFile (fetchData : String → Except String Dict) (catalog : Dict)
    (lang_file : String) : Dict :=
  match processAttempt fetchData catalog lang_file with
  | Except.ok record => setKey catalog (pyRemovesuffix lang_file ".json") (JVal.obj record)
  | Except.error _ => catalog

/-- The whole per-file loop of `main`: a left fold of `processFile` over the
filtered listing, starting from the loaded catalog; the result is what gets
saved wholesale at the end of the run. -/
def processAll (fetchData : String → Except String Dict) (catalog : Dict)
    (files : List String) : Dict :=
  files.foldl (processFile fetchData) catalog

/-! Structured `LocaleRecord` values, as described by the spec's data model
(§3), with their embedding into Python dicts.  The override flags are
optional: absent, or present with a boolean value. -/

/-- The `english` section of a LocaleRecord: name, region, and the two
optional override flags. -/
structure English where
  name : String
  region : String
  override_name : Option Bool
  override_region : Option Bool
  deriving Repr, DecidableEq

/-- The `native` section of a LocaleRecord. -/
structure Native where
  name : String
  region : String
  deriving Repr, DecidableEq

/-- A LocaleRecord per the spec's data model. -/
structure LocaleRecord where
  iso_code : String
  native : Native
  english : English
  deriving Repr, DecidableEq

/-- Embedding of an optional override flag as dict entries. -/
def optFlag (k : String) (f : Option Bool) : Dict :=
  match f with
  | some b => [(k, JVal.bool b)]
  | none => []

/-- Embedding of the english section as a dict. -/
def English.toDict (e : English) : Dict :=
  [("name", JVal.str e.name), ("region", JVal.str e.region)]
    ++ optFlag "override_name" e.override_name
    ++ optFlag "override_region" e.override_region

/-- Embedding of the native section as a dict. -/
def Native.toDict (n : Native) : Dict :=
  [("name", JVal.str n.name), ("region", JVal.str n.region)]

/-- Embedding of a LocaleRecord as a dict. -/
def LocaleRecord.toDict (r : LocaleRecord) : Dict :=
  [("iso_code", JVal.str r.iso_code),
   ("native", JVal.obj r.native.toDict),
   ("english", JVal.obj r.english.toDict)]

/-- The merged value of one english field: the existing value when the field
is overridden, the existing value when the new one is the placeholder, the
new value otherwise. -/
def mergeFieldVal (ev nv : String) (flag : Option Bool) : String :=
  if flag = some true then ev else if nv = "?" then ev else nv

/-- Structure-level description of the merge: `iso_code` and `native` come
wholesale from the new record, each english field follows `mergeFieldVal`,
and the override flags of the existing record survive unchanged. -/
def mergeS (e n : LocaleRecord) : LocaleRecord :=
  ⟨n.iso_code, n.native,
   ⟨mergeFieldVal e.english.name n.english.name e.english.override_name,
    mergeFieldVal e.english.region n.english.region e.english.override_region,
    e.english.override_name, e.english.override_region⟩⟩

/-- Reads field `f` of the `english` section of a record dict. -/
def englishField (d : Dict) (f : String) : Option JVal :=
  match getKey d "english" with
  | some (JVal.obj o) => getKey o f
  | _ => none

/-- The parsed JSON body of the locale file `de_de.json` used by the spec's
end-to-end example. -/
def deDeLocaleData : Dict :=
  [("language.code", JVal.str "de_de"),
   ("language.name", JVal.str "Deutsch"),
   ("language.region", JVal.str "Deutschland")]

/-- The record `update.py` actually produces for `de_de.json`: the language
part `"de"` of the locale is looked up lowercased in the alpha_3 (3-letter)
table, where 2-letter codes never occur, so the english name is `"?"`. -/
def deDeActualRecord : Dict :=
  [("iso_code", JVal.str "de_de"),
   ("native", JVal.obj [("name", JVal.str "Deutsch"), ("region", JVal.str "Deutschland")]),
   ("english", JVal.obj [("name", JVal.str "?"), ("region", JVal.str "Germany")])]

/-- The record the spec's end-to-end example expects for `de_de.json`, with
english name `"German"`. -/
def deDeClaimedRecord : Dict :=
  [("iso_code", JVal.str "de_de"),
   ("native", JVal.obj [("name", JVal.str "Deutsch"), ("region", JVal.str "Deutschland")]),
   ("english", JVal.obj [("name", JVal.str "German"), ("region", JVal.str "Germany")])]

/-- Characterization of `merge_lang_info` on embedded records: the merge
always succeeds and produces exactly the embedding of `mergeS`. -/
theorem merge_lang_info_toDict (e n : LocaleRecord) :
    merge_lang_info e.toDict n.toDict = Except.ok (mergeS e n).toDict := by
  obtain ⟨iso, ⟨nn, nr⟩, ⟨en, er, fn, fr⟩⟩ := e
  obtain ⟨iso2, ⟨nn2, nr2⟩, ⟨en2, er2, fn2, fr2⟩⟩ := n
  rcases fn with _ | fnb <;> rcases fr with _ | frb <;>
    by_cases hqn : en2 = "?" <;> by_cases hqr : er2 = "?" <;>
    (try cases fnb) <;> (try cases frb) <;>
    simp [merge_lang_info, mergeField, mergeS, mergeFieldVal,
          LocaleRecord.toDict, English.toDict, Native.toDict, optFlag,
          getSectionD, getKey, setKey, getD, pyIndex, pyIndex2,
          setNested, truthy, isPlaceholder, hqn, hqr, Bind.bind, Except.bind]

theorem englishField_toDict (r : LocaleRecord) (f : String) :
    englishField r.toDict f = getKey r.english.toDict f := by
  simp [englishField, LocaleRecord.toDict, getKey]

theorem getKey_toDict_name (e : English) :
    getKey e.toDict "name" = some (JVal.str e.name) := by
  simp [English.toDict, getKey]

theorem getKey_toDict_region (e : English) :
    getKey e.toDict "region" = some (JVal.str e.region) := by
  simp [English.toDict, getKey]

theorem getKey_toDict_overrideName (e : English) :
    getKey e.toDict "override_name" = Option.map JVal.bool e.override_name := by
  rcases e with ⟨n, r, fn, fr⟩
  cases fn <;> cases fr <;> simp [English.toDict, optFlag, getKey]

theorem getKey_toDict_overrideRegion (e : English) :
    getKey e.toDict "override_region" = Option.map JVal.bool e.override_region := by
  rcases e with ⟨n, r, fn, fr⟩
  cases fn <;> cases fr <;> simp [English.toDict, optFlag, getKey]

theorem pyIndex2_toDict_name (r : LocaleRecord) :
    pyIndex2 r.toDict "english" "name" = Except.ok (JVal.str r.english.name) := by
  simp [pyIndex2, pyIndex, LocaleRecord.toDict, getKey, getKey_toDict_name,
        Bind.bind, Except.bind]

theorem getKey_setKey_self (d : Dict) (k : String) (v : JVal) :
    getKey (setKey d k v) k = some v := by
  induction d with
  | nil => simp [getKey, setKey]
  | cons p rest ih =>
      obtain ⟨k2, v2⟩ := p
      by_cases h : k2 = k <;> simp [getKey, setKey, h, ih]

theorem getKey_setKey_ne (d : Dict) (k k2 : String) (v : JVal) (h : k2 ≠ k) :
    getKey (setKey d k2 v) k = getKey d k := by
  induction d with
  | nil => simp [getKey, setKey, h]
  | cons p rest ih =>
      obtain ⟨k3, v3⟩ := p
      by_cases h3 : k3 = k2 <;> by_cases h4 : k3 = k <;>
        simp_all [getKey, setKey]

theorem processFile_mono (fetch : String → Except String Dict) (catalog : Dict)
    (f k : String) (h : (getKey catalog k).isSome) :
    (getKey (processFile fetch catalog f) k).isSome := by
  unfold processFile
  cases processAttempt fetch catalog f with
  | error e => simpa using h
  | ok r =>
      by_cases hk : pyRemovesuffix f ".json" = k
      · simp [hk, getKey_setKey_self]
      · simpa [getKey_setKey_ne _ _ _ _ hk] using h

theorem processAll_mono (fetch : String → Except String Dict) (catalog : Dict)
    (files : List String) (k : String) (h : (getKey catalog k).isSome) :
    (getKey (processAll fetch catalog files) k).isSome := by
  induction files generalizing catalog with
  | nil => simpa using h
  | cons f fs ih =>
      exact ih (processFile fetch catalog f) (processFile_mono fetch catalog f k h)

theorem processAll_append (fetch : String → Except String Dict) (catalog : Dict)
    (xs ys : List String) :
    processAll fetch catalog (xs ++ ys) =
      processAll fetch (processAll fetch catalog xs) ys := by
  simp [processAll, List.foldl_append]

theorem processAll_cons (fetch : String → Except String Dict) (catalog : Dict)
    (f : String) (ys : List String) :
    processAll fetch catalog (f :: ys) =
      processAll fetch (processFile fetch catalog f) ys := rfl

/-- C1 (counterexample): on the locale file `de_de.json` with fields
`language.code = "de_de"`, `language.name = "Deutsch"`,
`language.region = "Deutschland"`, the fetch-and-resolve step produces a
record whose `english.name` is `"?"`, not `"German"` as the claim states:
the 2-letter language part `"de"` is looked up in the 3-letter (alpha_3)
keyed reference table and the lookup fails. -/
theorem de_de_end_to_end_counterexample :
    get_lang_info deDeLocaleData = Except.ok deDeActualRecord ∧
    englishField deDeActualRecord "name" = some (JVal.str "?") ∧
    englishField deDeClaimedRecord "name" = some (JVal.str "German") ∧
    JVal.str "?" ≠ JVal.str "German" :=
  ⟨rfl, rfl, rfl, by simp⟩

/-- C1 (amended): on the locale file `de_de.json` with the fields above and
an empty existing catalog, the record produced by the fetch-and-resolve step
equals `{"iso_code": "de_de", "native": {"name": "Deutsch", "region":
"Deutschland"}, "english": {"name": "?", "region": "Germany"}}` — the region
resolves to `"Germany"` but the english name is the placeholder. -/
theorem de_de_end_to_end :
    get_lang_info deDeLocaleData = Except.ok deDeActualRecord := rfl

/-- C2: for every existing record whose english section has `override_name`
set to `true`, and every new record, the merge keeps the existing
`english.name` and keeps `override_name` equal to `true`; symmetrically for
`override_region` and `english.region`. -/
theorem merge_override_preservation (e n : LocaleRecord) :
    ∃ d, merge_lang_info e.toDict n.toDict = Except.ok d ∧
      (e.english.override_name = some true →
        englishField d "name" = some (JVal.str e.english.name) ∧
        englishField d "override_name" = some (JVal.bool true)) ∧
      (e.english.override_region = some true →
        englishField d "region" = some (JVal.str e.english.region) ∧
        englishField d "override_region" = some (JVal.bool true)) := by
  refine ⟨_, merge_lang_info_toDict e n, fun h => ?_, fun h => ?_⟩ <;>
    simp [englishField_toDict, getKey_toDict_name, getKey_toDict_region,
          getKey_toDict_overrideName, getKey_toDict_overrideRegion,
          mergeS, mergeFieldVal, h]

/-- C2 witness at a concrete overridden record. -/
theorem merge_override_preservation_witness :
    ∃ d, merge_lang_info
        (LocaleRecord.toDict ⟨"de_de", ⟨"a", "b"⟩, ⟨"Custom", "Germany", some true, some true⟩⟩)
        (LocaleRecord.toDict ⟨"de_de", ⟨"Deutsch", "Deutschland"⟩, ⟨"Other", "Elsewhere", none, none⟩⟩) =
      Except.ok d ∧
      (englishField d "name" = some (JVal.str "Custom") ∧
       englishField d "override_name" = some (JVal.bool true)) ∧
      (englishField d "region" = some (JVal.str "Germany") ∧
       englishField d "override_region" = some (JVal.bool true)) := by
  obtain ⟨d, hd, hn, hr⟩ := merge_override_preservation
    ⟨"de_de", ⟨"a", "b"⟩, ⟨"Custom", "Germany", some true, some true⟩⟩
    ⟨"de_de", ⟨"Deutsch", "Deutschland"⟩, ⟨"Other", "Elsewhere", none, none⟩⟩
  exact ⟨d, hd, hn rfl, hr rfl⟩

/-- C3: when the existing record holds a non-placeholder english value that
is not overridden and the new record's corresponding field is `"?"`, the
merge keeps the existing value and leaves that field's override flag exactly
as it was (absent stays absent, a present flag keeps its value). -/
theorem merge_placeholder_non_clobber (e n : LocaleRecord) :
    ∃ d, merge_lang_info e.toDict n.toDict = Except.ok d ∧
      (e.english.override_name ≠ some true → e.english.name ≠ "?" →
        n.english.name = "?" →
        englishField d "name" = some (JVal.str e.english.name) ∧
        englishField d "override_name" = Option.map JVal.bool e.english.override_name) ∧
      (e.english.override_region ≠ some true → e.english.region ≠ "?" →
        n.english.region = "?" →
        englishField d "region" = some (JVal.str e.english.region) ∧
        englishField d "override_region" = Option.map JVal.bool e.english.override_region) := by
  refine ⟨_, merge_lang_info_toDict e n, fun h1 h2 h3 => ?_, fun h1 h2 h3 => ?_⟩ <;>
    simp [englishField_toDict, getKey_toDict_name, getKey_toDict_region,
          getKey_toDict_overrideName, getKey_toDict_overrideRegion,
          mergeS, mergeFieldVal, h1, h3]

/-- C3 witness: `"?"` does not clobber `"German"`/`"Germany"`. -/
theorem merge_placeholder_non_clobber_witness :
    ∃ d, merge_lang_info
        (LocaleRecord.toDict ⟨"de_de", ⟨"a", "b"⟩, ⟨"German", "Germany", none, some false⟩⟩)
        (LocaleRecord.toDict ⟨"de_de", ⟨"Deutsch", "Deutschland"⟩, ⟨"?", "?", none, none⟩⟩) =
      Except.ok d ∧
      (englishField d "name" = some (JVal.str "German") ∧
       englishField d "override_name" = none) ∧
      (englishField d "region" = some (JVal.str "Germany") ∧
       englishField d "override_region" = some (JVal.bool false)) := by
  obtain ⟨d, hd, hn, hr⟩ := merge_placeholder_non_clobber
    ⟨"de_de", ⟨"a", "b"⟩, ⟨"German", "Germany", none, some false⟩⟩
    ⟨"de_de", ⟨"Deutsch", "Deutschland"⟩, ⟨"?", "?", none, none⟩⟩
  exact ⟨d, hd, hn (by decide) (by decide) rfl, hr (by decide) (by decide) rfl⟩

/-- C4: the merged record's `iso_code` and `native` always equal the new
record's values, whatever override flags the existing record carries. -/
theorem merge_wholesale_replace (e n : LocaleRecord) :
    ∃ d, merge_lang_info e.toDict n.toDict = Except.ok d ∧
      getKey d "iso_code" = some (JVal.str n.iso_code) ∧
      getKey d "native" = some (JVal.obj n.native.toDict) := by
  refine ⟨_, merge_lang_info_toDict e n, ?_, ?_⟩ <;>
    simp [LocaleRecord.toDict, mergeS, getKey]

/-- C5: merging an override-free record with itself returns the record
unchanged. -/
theorem merge_idempotent (r : LocaleRecord)
    (h1 : r.english.override_name = none)
    (h2 : r.english.override_region = none) :
    merge_lang_info r.toDict r.toDict = Except.ok r.toDict := by
  rw [merge_lang_info_toDict]
  obtain ⟨iso, ⟨nn, nr⟩, ⟨en, er, fn, fr⟩⟩ := r
  simp only [English.override_name, English.override_region] at h1 h2
  subst h1; subst h2
  simp [mergeS, mergeFieldVal]

/-- C5 witness at a concrete override-free record. -/
theorem merge_idempotent_witness :
    merge_lang_info
        (LocaleRecord.toDict ⟨"de_de", ⟨"Deutsch", "Deutschland"⟩, ⟨"German", "Germany", none, none⟩⟩)
        (LocaleRecord.toDict ⟨"de_de", ⟨"Deutsch", "Deutschland"⟩, ⟨"German", "Germany", none, none⟩⟩) =
      Except.ok (LocaleRecord.toDict ⟨"de_de", ⟨"Deutsch", "Deutschland"⟩, ⟨"German", "Germany", none, none⟩⟩) :=
  merge_idempotent ⟨"de_de", ⟨"Deutsch", "Deutschland"⟩, ⟨"German", "Germany", none, none⟩⟩ rfl rfl

/-- C6: whenever splitting the locale code on `"_"` does not yield exactly
two parts, the name resolver returns `("?", "?")`. -/
theorem get_locale_details_wrong_shape (locale : String)
    (h : (pySplit locale '_').length ≠ 2) :
    get_locale_details locale = ("?", "?") := by
  rcases hs : pySplit locale '_' with _ | ⟨a, _ | ⟨b, _ | ⟨c, tl⟩⟩⟩
  · simp [get_locale_details, hs]
  · simp [get_locale_details, hs]
  · exact absurd (by simp [hs]) h
  · simp [get_locale_details, hs]

/-- C6 witness: `"en"` has one part. -/
theorem get_locale_details_wrong_shape_witness :
    (pySplit "en" '_').length ≠ 2 ∧ get_locale_details "en" = ("?", "?") :=
  ⟨by decide, get_locale_details_wrong_shape "en" (by decide)⟩

/-- C7: on a two-part locale the resolver treats the sides independently:
the language part is looked up lowercased in the 3-letter table and the
region part uppercased in the 2-letter table; a hit returns the registered
name exactly, a miss yields `"?"` for that side only. -/
theorem get_locale_details_resolution (locale lang region : String)
    (h : pySplit locale '_' = [lang, region]) :
    ((∀ ln, tableGet pycountryLanguagesAlpha3 (pyLower lang) = some ln →
        (get_locale_details locale).1 = ln) ∧
     (tableGet pycountryLanguagesAlpha3 (pyLower lang) = none →
        (get_locale_details locale).1 = "?")) ∧
    ((∀ cn, tableGet pycountryCountriesAlpha2 (pyUpper region) = some cn →
        (get_locale_details locale).2 = cn) ∧
     (tableGet pycountryCountriesAlpha2 (pyUpper region) = none →
        (get_locale_details locale).2 = "?")) := by
  have hd : get_locale_details locale =
      ((tableGet pycountryLanguagesAlpha3 (pyLower lang)).getD "?",
       (tableGet pycountryCountriesAlpha2 (pyUpper region)).getD "?") := by
    simp [get_locale_details, h]
  refine ⟨⟨fun ln hl => ?_, fun hl => ?_⟩, fun cn hc => ?_, fun hc => ?_⟩
  · simp [hd, hl]
  · simp [hd, hl]
  · simp [hd, hc]
  · simp [hd, hc]

/-- C7 witness: in `"de_ES"` the region resolves to `"Spain"` while the
unknown (2-letter) language side alone falls back to `"?"`. -/
theorem get_locale_details_resolution_witness :
    pySplit "de_ES" '_' = ["de", "ES"] ∧
    (get_locale_details "de_ES").1 = "?" ∧
    (get_locale_details "de_ES").2 = "Spain" :=
  ⟨rfl,
   (get_locale_details_resolution "de_ES" "de" "ES" rfl).1.2 rfl,
   (get_locale_details_resolution "de_ES" "de" "ES" rfl).2.1 "Spain" rfl⟩

/-- C8: per-item failures are contained: a failing file leaves the whole
catalog (hence its own key's entry) unchanged; the run over a listing with a
failing file in the middle equals the run over the remaining files; and the
key of any file whose attempt succeeds is present in the final catalog no
matter which other files fail. -/
theorem per_item_error_isolation :
    (∀ (fetch : String → Except String Dict) (catalog : Dict) (f msg : String),
        processAttempt fetch catalog f = Except.error msg →
        processFile fetch catalog f = catalog) ∧
    (∀ (fetch : String → Except String Dict) (catalog : Dict)
        (xs ys : List String) (f msg : String),
        processAttempt fetch (processAll fetch catalog xs) f = Except.error msg →
        processAll fetch catalog (xs ++ f :: ys) =
          processAll fetch (processAll fetch catalog xs) ys) ∧
    (∀ (fetch : String → Except String Dict) (catalog : Dict)
        (xs ys : List String) (f : String) (r : Dict),
        processAttempt fetch (processAll fetch catalog xs) f = Except.ok r →
        (getKey (processAll fetch catalog (xs ++ f :: ys))
            (pyRemovesuffix f ".json")).isSome) := by
  have h1 : ∀ (fetch : String → Except String Dict) (catalog : Dict) (f msg : String),
      processAttempt fetch catalog f = Except.error msg →
      processFile fetch catalog f = catalog := by
    intro fetch catalog f msg h
    simp [processFile, h]
  refine ⟨h1, fun fetch catalog xs ys f msg h => ?_, fun fetch catalog xs ys f r h => ?_⟩
  · rw [processAll_append, processAll_cons, h1 fetch (processAll fetch catalog xs) f msg h]
  · rw [processAll_append, processAll_cons]
    refine processAll_mono fetch _ ys (pyRemovesuffix f ".json") ?_
    simp [processFile, h, getKey_setKey_self]

/-- C8 witness: with an oracle that serves only `de_de.json`, a failing file
is a no-op, a run with the failing file equals the run without it, and the
successful file's key ends up in the final catalog. -/
theorem per_item_error_isolation_witness :
    processFile
        (fun s => if s = "de_de.json" then Except.ok deDeLocaleData else Except.error "HTTP error")
        [] "bad.json" = [] ∧
    processAll
        (fun s => if s = "de_de.json" then Except.ok deDeLocaleData else Except.error "HTTP error")
        [] ["bad.json", "de_de.json"] =
      processAll
        (fun s => if s = "de_de.json" then Except.ok deDeLocaleData else Except.error "HTTP error")
        [] ["de_de.json"] ∧
    (getKey
        (processAll
          (fun s => if s = "de_de.json" then Except.ok deDeLocaleData else Except.error "HTTP error")
          [] ["de_de.json", "bad.json"]) "de_de").isSome := by
  refine ⟨per_item_error_isolation.1 _ [] "bad.json" "HTTP error" rfl, ?_, ?_⟩
  · exact per_item_error_isolation.2.1 _ [] [] ["de_de.json"] "bad.json" "HTTP error" rfl
  · exact per_item_error_isolation.2.2 _ [] [] ["bad.json"] "de_de.json" deDeActualRecord rfl

/-- C9: the run's worklist is exactly the listed files that end in `".json"`
and are not `"deprecated.json"`, kept in their original listed order (the
filtered list is a sublist of the listing). -/
theorem listing_filter (files : List String) :
    (∀ f, f ∈ filterLangFiles files ↔
        (f ∈ files ∧ pyEndsWith f ".json" = true ∧ f ≠ "deprecated.json")) ∧
    List.Sublist (filterLangFiles files) files := by
  constructor
  · intro f
    simp [filterLangFiles, List.mem_filter, and_assoc]
  · exact List.filter_sublist files

/-- C9 witness: a concrete listing where `deprecated.json` and a non-JSON
file are skipped and order is preserved. -/
theorem listing_filter_witness :
    filterLangFiles ["de_de.json", "deprecated.json", "readme.txt", "en_us.json"] =
      ["de_de.json", "en_us.json"] ∧
    ("de_de.json" ∈ filterLangFiles ["de_de.json", "deprecated.json", "readme.txt", "en_us.json"] ∧
     "deprecated.json" ∉ filterLangFiles ["de_de.json", "deprecated.json", "readme.txt", "en_us.json"] ∧
     "readme.txt" ∉ filterLangFiles ["de_de.json", "deprecated.json", "readme.txt", "en_us.json"]) := by
  refine ⟨rfl, ?_, ?_, ?_⟩
  · exact ((listing_filter _).1 _).2 ⟨by simp, rfl, by simp⟩
  · intro hmem
    exact absurd (((listing_filter _).1 _).1 hmem).2.2 (by simp)
  · intro hmem
    exact absurd (((listing_filter _).1 _).1 hmem).2.1 (by decide)

/-- C10: the merge is partial at its public interface: it fails with a
key-lookup error when the existing record lacks an `"english"` mapping, and
likewise when the new record lacks `"english"` or its `"name"`/`"region"`
fields; totality needs both sides to carry the english mapping. -/
theorem merge_partial_without_english :
    (∀ (d : Dict) (n : LocaleRecord), getKey d "english" = none →
        merge_lang_info d n.toDict = Except.error "KeyError") ∧
    (∀ (e : LocaleRecord) (d : Dict), getKey d "english" = none →
        merge_lang_info e.toDict d = Except.error "KeyError") ∧
    (∀ (e : LocaleRecord) (d : Dict) (sec : Dict),
        getKey d "english" = some (JVal.obj sec) → getKey sec "name" = none →
        merge_lang_info e.toDict d = Except.error "KeyError") ∧
    (∀ (e : LocaleRecord) (d : Dict) (sec : Dict) (s : String),
        getKey d "english" = some (JVal.obj sec) →
        getKey sec "name" = some (JVal.str s) → getKey sec "region" = none →
        merge_lang_info e.toDict d = Except.error "KeyError") := by
  refine ⟨fun d n h => ?_, fun e d h => ?_, fun e d sec h1 h2 => ?_,
          fun e d sec s h1 h2 h3 => ?_⟩
  · simp [merge_lang_info, mergeField, getSectionD, h, getD, getKey,
          pyIndex2_toDict_name, setNested, truthy, isPlaceholder,
          Bind.bind, Except.bind]
  · simp [merge_lang_info, mergeField, getSectionD, LocaleRecord.toDict, getKey,
          pyIndex2, pyIndex, h, Bind.bind, Except.bind]
  · simp [merge_lang_info, mergeField, getSectionD, LocaleRecord.toDict, getKey,
          pyIndex2, pyIndex, h1, h2, Bind.bind, Except.bind]
  · obtain ⟨iso, ⟨nn, nr⟩, ⟨en, er, fn, fr⟩⟩ := e
    rcases fn with _ | fnb <;> rcases fr with _ | frb <;>
      (try cases fnb) <;> (try cases frb) <;> by_cases hs : s = "?" <;>
      simp [merge_lang_info, mergeField, getSectionD, LocaleRecord.toDict,
            English.toDict, Native.toDict, optFlag, getKey, setKey, getD,
            pyIndex, pyIndex2, setNested, truthy, isPlaceholder,
            h1, h2, h3, hs, Bind.bind, Except.bind]

/-- C10 witness: concrete merges missing the english mapping (or its name or
region field) on one side all fail with `KeyError`. -/
theorem merge_partial_without_english_witness :
    merge_lang_info []
        (LocaleRecord.toDict ⟨"x", ⟨"a", "b"⟩, ⟨"c", "d", none, none⟩⟩) =
      Except.error "KeyError" ∧
    merge_lang_info
        (LocaleRecord.toDict ⟨"x", ⟨"a", "b"⟩, ⟨"c", "d", none, none⟩⟩) [] =
      Except.error "KeyError" ∧
    merge_lang_info
        (LocaleRecord.toDict ⟨"x", ⟨"a", "b"⟩, ⟨"c", "d", none, none⟩⟩)
        [("english", JVal.obj [])] =
      Except.error "KeyError" ∧
    merge_lang_info
        (LocaleRecord.toDict ⟨"x", ⟨"a", "b"⟩, ⟨"c", "d", none, none⟩⟩)
        [("english", JVal.obj [("name", JVal.str "c")])] =
      Except.error "KeyError" :=
  ⟨merge_partial_without_english.1 [] ⟨"x", ⟨"a", "b"⟩, ⟨"c", "d", none, none⟩⟩ rfl,
   merge_partial_without_english.2.1 ⟨"x", ⟨"a", "b"⟩, ⟨"c", "d", none, none⟩⟩ [] rfl,
   merge_partial_without_english.2.2.1 ⟨"x", ⟨"a", "b"⟩, ⟨"c", "d", none, none⟩⟩
     [("english", JVal.obj [])] [] rfl rfl,
   merge_partial_without_english.2.2.2 ⟨"x", ⟨"a", "b"⟩, ⟨"c", "d", none, none⟩⟩
     [("english", JVal.obj [("name", JVal.str "c")])] [("name", JVal.str "c")] "c"
     rfl rfl rfl⟩

end MCLang
